import Mathlib

/-!
Shallow embedding of the Fruito backend (src/main.py, src/schemas.py).

Modelling conventions, stated once:

* The document store is modelled per collection as a Lean list of typed
  records, in Mongo natural (insertion) order.  Mongo operations are
  translated by their semantics: find_one returns the first matching
  document, update_one rewrites the first matching document in place,
  update_many rewrites every matching document, insert_one appends.
* Database-assigned identifiers (ObjectId) are modelled as naturals; a
  freshly inserted document receives the current length of its collection,
  which is fresh for the states reachable here.  The helper
  create_document from the persistence accessor (database.py, not under
  src/) is modelled from the spec: it inserts the document and returns the
  assigned id (spec section 2 and section 6: insert against a named
  collection, records carry a database-assigned identifier).
* Python floats are modelled as rationals; all numeric literals appearing
  in the claims (2.50, 3, 7.50, 0.0) are dyadic and exact in both
  arithmetics, so the translation is faithful on them.
* The HMAC-SHA256 primitive from the hmac/hashlib libraries is an external
  library, not repository code; it enters the model as an explicit function
  parameter HMAC : key -> message -> digest.  hmac.compare_digest is
  constant-time string equality; its value is equality of strings.
* Every handler guards on database availability (db is None); all claims
  assume the database is available, so the model omits the None branch.
* An HTTPException raised by a handler aborts the request but leaves the
  persistent collections in whatever state they had at raise time.  The
  order handler therefore returns Except with the error value carrying the
  collections as they stood when the exception was raised: that the carried
  state equals the initial state is then a theorem about the code (the
  raise sites precede all writes), not an artifact of the embedding.
* datetime timestamps written by the seeding routine are real-time values
  with no bearing on any claim; they are omitted from the user record.
-/

/-- SECRET_KEY: os.getenv fallback constant from main.py line 24. -/
def SECRET_KEY : String := "super-secret-key"

/-- ADMIN_EMAIL from main.py line 86. -/
def ADMIN_EMAIL : String := "deeptesh2006@gmail.com"

/-- ADMIN_PASSWORD from main.py line 87. -/
def ADMIN_PASSWORD : String := "deep1591"

/-- hash_password (main.py 27-29): keyed hash of the password under the
process-wide secret key.  HMAC is the external hmac-sha256 primitive. -/
def hash_password (HMAC : String → String → String) (password : String) : String :=
  HMAC SECRET_KEY password

/-- hmac.compare_digest: constant-time comparison; its value is equality. -/
def compare_digest (a b : String) : Bool :=
  a == b

/-- verify_password (main.py 32-33): recompute and compare. -/
def verify_password (HMAC : String → String → String) (password password_hash : String) : Bool :=
  compare_digest (hash_password HMAC password) password_hash

/-- A document of the user collection (schemas.py User; fields written by
signup and seeding in main.py).  Timestamps omitted (see header). -/
structure UserDoc where
  id : Nat
  name : String
  email : String
  password_hash : String
  role : String
deriving DecidableEq, Repr

/-- A document of the product collection: ProductIn fields (main.py 55-60)
plus the database-assigned id. -/
structure Product where
  id : Nat
  name : String
  description : Option String
  price : ℚ
  image : Option String
  stock : Int
deriving DecidableEq, Repr

/-- ProductIn (main.py 55-60): admin product-creation payload.  No bound of
any kind is declared on price or stock in main.py. -/
structure ProductIn where
  name : String
  description : Option String
  price : ℚ
  image : Option String
  stock : Int
deriving DecidableEq, Repr

/-- OrderItemIn (main.py 67-69): a requested line item, and also exactly
the shape the order handler persists per line item (model_dump). -/
structure OrderItemIn where
  product_id : Nat
  quantity : Int
deriving DecidableEq, Repr

/-- OrderItem (schemas.py 27-31): the declared persisted schema for a line
item, with name/price snapshots at purchase time.  Declared only; compare
with OrderItemIn, the shape the write path actually stores. -/
structure OrderItemSchema where
  product_id : Nat
  name : String
  price : ℚ
  quantity : Int
deriving DecidableEq, Repr

/-- A document of the order collection (fields written by place_order,
main.py 211-216) plus the database-assigned id. -/
structure OrderDoc where
  id : Nat
  user_id : Nat
  items : List OrderItemIn
  total : ℚ
  status : String
deriving DecidableEq, Repr

/-- OrderOut (main.py 72-77): response shape of the order handler. -/
structure OrderOut where
  id : Nat
  user_id : Nat
  total : ℚ
  status : String
  created_at : Option String
deriving DecidableEq, Repr

/-- OrderCreate (main.py 190-192). -/
structure OrderCreate where
  user_id : Nat
  items : List OrderItemIn
deriving DecidableEq, Repr

/-- UserPublic (main.py 48-52). -/
structure UserPublic where
  id : Nat
  name : String
  email : String
  role : String
deriving DecidableEq, Repr

/-- SignupRequest (main.py 37-40). -/
structure SignupRequest where
  name : String
  email : String
  password : String
deriving DecidableEq, Repr

/-- LoginRequest (main.py 43-45). -/
structure LoginRequest where
  email : String
  password : String
deriving DecidableEq, Repr

/-- AdminCreateProductRequest (main.py 80-82). -/
structure AdminCreateProductRequest where
  product : ProductIn
  credentials : LoginRequest
deriving DecidableEq, Repr

/-- The HTTPExceptions raised by the order handler (main.py 204, 206). -/
inductive OrderErr where
  | productNotFound
  | insufficientStock (name : String)
deriving DecidableEq, Repr

/-- HTTP status of each order-handler error: 404 product-not-found,
400 insufficient-stock. -/
def OrderErr.status : OrderErr → Nat
  | .productNotFound => 404
  | .insufficientStock _ => 400

/-- The HTTPExceptions raised by the auth and admin handlers
(main.py 122, 124, 140, 142, 152, 155, 167). -/
inductive AuthErr where
  | reservedEmail
  | alreadyRegistered
  | invalidCredentials
  | notAUserAccount
  | adminAccessDenied
deriving DecidableEq, Repr

/-- db[collection].find_one on the user collection keyed by email: first
document in natural order whose email matches. -/
def find_one (s : List UserDoc) (email : String) : Option UserDoc :=
  s.find? (fun u => u.email == email)

/-- db[product].find_one keyed by _id: first document whose id matches. -/
def findProduct (pdb : List Product) (pid : Nat) : Option Product :=
  pdb.find? (fun p => p.id == pid)

/-- db[product].update_one keyed by _id with an $inc on stock
(main.py 210): rewrite the first matching document. -/
def incStockFirst (pid : Nat) (delta : Int) : List Product → List Product
  | [] => []
  | p :: rest =>
      if p.id == pid then { p with stock := p.stock + delta } :: rest
      else p :: incStockFirst pid delta rest

/-- The validation loop of place_order (main.py 200-207): fetch each item,
fail 404 on a missing product, fail 400 on insufficient stock, accumulate
total; an error carries the product collection as it stands at raise time. -/
def checkLoop (pdb : List Product) :
    List OrderItemIn → ℚ → Except (OrderErr × List Product) ℚ
  | [], total => .ok total
  | item :: rest, total =>
      match findProduct pdb item.product_id with
      | none => .error (.productNotFound, pdb)
      | some prod =>
          if prod.stock < item.quantity then
            .error (.insufficientStock prod.name, pdb)
          else
            checkLoop pdb rest (total + prod.price * item.quantity)

/-- The stock-reduction loop of place_order (main.py 209-210): one
update_one with $inc of -quantity per item, in request order. -/
def decLoop (pdb : List Product) (items : List OrderItemIn) : List Product :=
  items.foldl (fun db item => incStockFirst item.product_id (-item.quantity) db) pdb

/-- Modelled from the spec: create_document on the order collection
(database.py is not under src/) — insert the document, return the assigned
id (spec sections 2 and 6). -/
def insertOrder (odb : List OrderDoc) (uid : Nat) (items : List OrderItemIn)
    (total : ℚ) : List OrderDoc × Nat :=
  (odb ++ [{ id := odb.length, user_id := uid, items := items, total := total,
             status := "placed" }], odb.length)

/-- db[user].update_many with filter email ne ADMIN_EMAIL, role admin, and
$set role user (main.py 97/109): demote every other admin. -/
def demoteOtherAdmins (s : List UserDoc) : List UserDoc :=
  s.map (fun u =>
    if u.email ≠ ADMIN_EMAIL ∧ u.role = "admin" then { u with role := "user" } else u)

/-- db[user].update_one keyed by email with $set role admin and the reset
password hash (main.py 98): rewrite the first matching document. -/
def setAdminFirst (h : String) : List UserDoc → List UserDoc
  | [] => []
  | u :: rest =>
      if u.email == ADMIN_EMAIL then { u with role := "admin", password_hash := h } :: rest
      else u :: setAdminFirst h rest

/-- seed_admin (main.py 90-109): on startup, if the reserved email exists,
demote every other admin then force that record to role admin with the
configured password hash; otherwise insert the admin record and run the
demotion sweep. -/
def seed_admin (HMAC : String → String → String) (s : List UserDoc) : List UserDoc :=
  match find_one s ADMIN_EMAIL with
  | some _ =>
      setAdminFirst (hash_password HMAC ADMIN_PASSWORD) (demoteOtherAdmins s)
  | none =>
      demoteOtherAdmins
        (s ++ [{ id := s.length, name := "Admin", email := ADMIN_EMAIL,
                 password_hash := hash_password HMAC ADMIN_PASSWORD, role := "admin" }])

/-- user_signup (main.py 117-131): reject the reserved email, reject a
registered email, otherwise insert a user record with role user and the
hashed password (create_document modelled from the spec: insert and return
the assigned id) and return the public view. -/
def user_signup (HMAC : String → String → String) (s : List UserDoc)
    (payload : SignupRequest) : Except AuthErr (List UserDoc × UserPublic) :=
  if payload.email = ADMIN_EMAIL then .error .reservedEmail
  else
    match find_one s payload.email with
    | some _ => .error .alreadyRegistered
    | none =>
        let uid := s.length
        .ok (s ++ [{ id := uid, name := payload.name, email := payload.email,
                     password_hash := hash_password HMAC payload.password,
                     role := "user" }],
             { id := uid, name := payload.name, email := payload.email, role := "user" })

/-- user_login (main.py 134-143): look up by email, verify the password,
require role user, return the public view with role user. -/
def user_login (HMAC : String → String → String) (s : List UserDoc)
    (payload : LoginRequest) : Except AuthErr UserPublic :=
  match find_one s payload.email with
  | none => .error .invalidCredentials
  | some user =>
      if ¬ verify_password HMAC payload.password user.password_hash then
        .error .invalidCredentials
      else if user.role ≠ "user" then .error .notAUserAccount
      else .ok { id := user.id, name := user.name, email := user.email, role := "user" }

/-- admin_login (main.py 146-156): look up by email, verify the password,
additionally require the email to equal the reserved admin email and the
role to be admin, return the public view with role admin. -/
def admin_login (HMAC : String → String → String) (s : List UserDoc)
    (payload : LoginRequest) : Except AuthErr UserPublic :=
  match find_one s payload.email with
  | none => .error .invalidCredentials
  | some user =>
      if ¬ verify_password HMAC payload.password user.password_hash then
        .error .invalidCredentials
      else if payload.email ≠ ADMIN_EMAIL ∨ user.role ≠ "admin" then
        .error .adminAccessDenied
      else .ok { id := user.id, name := user.name, email := user.email, role := "admin" }

/-- create_product (main.py 160-169): re-validate admin credentials exactly
as admin login, then insert the product payload unchanged (create_document
modelled from the spec: insert and return the assigned id) and return it
with its id.  main.py declares no bound on price or stock. -/
def create_product (HMAC : String → String → String) (s : List UserDoc)
    (pdb : List Product) (req : AdminCreateProductRequest) :
    Except AuthErr (List Product × Product) :=
  match find_one s req.credentials.email with
  | none => .error .adminAccessDenied
  | some admin =>
      if ¬ verify_password HMAC req.credentials.password admin.password_hash
          ∨ req.credentials.email ≠ ADMIN_EMAIL ∨ admin.role ≠ "admin" then
        .error .adminAccessDenied
      else
        let pid := pdb.length
        let p : Product := { id := pid, name := req.product.name,
                             description := req.product.description,
                             price := req.product.price, image := req.product.image,
                             stock := req.product.stock }
        .ok (pdb ++ [p], p)

/-- place_order (main.py 195-217): validate all items reading the
pre-decrement stock, then decrement stock per item, insert the order
document, and return id, user id, total and status.  An error carries the
collections as they stand at raise time. -/
def place_order (pdb : List Product) (odb : List OrderDoc) (order : OrderCreate) :
    Except (OrderErr × List Product × List OrderDoc)
           (List Product × List OrderDoc × OrderOut) :=
  match checkLoop pdb order.items 0 with
  | .error (e, pdb1) => .error (e, pdb1, odb)
  | .ok total =>
      let pdb2 := decLoop pdb order.items
      let (odb2, oid) := insertOrder odb order.user_id order.items total
      .ok (pdb2, odb2,
           { id := oid, user_id := order.user_id, total := total,
             status := "placed", created_at := none })

/-! ### Helper lemmas about the order handler -/

/-- A requested item fails validation: its product is missing, or the
product's current stock is below the requested quantity. -/
def itemFails (pdb : List Product) (it : OrderItemIn) : Prop :=
  findProduct pdb it.product_id = none ∨
    ∃ p, findProduct pdb it.product_id = some p ∧ p.stock < it.quantity

/-- Number of user records carrying the reserved admin email.  The spec's
data model declares email unique, so conforming states satisfy
reservedCount s ≤ 1. -/
def reservedCount (s : List UserDoc) : Nat :=
  s.countP (fun u => u.email == ADMIN_EMAIL)

/-- The user records with role admin, in collection order. -/
def adminRecords (s : List UserDoc) : List UserDoc :=
  s.filter (fun u => u.role == "admin")

lemma checkLoop_error_of_fails (pdb : List Product) :
    ∀ (items : List OrderItemIn) (t : ℚ), (∃ it ∈ items, itemFails pdb it) →
      ∃ e, checkLoop pdb items t = .error (e, pdb) ∧
        (e = .productNotFound ∨
          ∃ it ∈ items, ∃ p, findProduct pdb it.product_id = some p ∧
            p.stock < it.quantity ∧ e = .insufficientStock p.name) := by
  intro items
  induction items with
  | nil => intro t h; rcases h with ⟨it, hmem, _⟩; cases hmem
  | cons it rest ih =>
      intro t h
      rcases hf : findProduct pdb it.product_id with _ | p
      · exact ⟨.productNotFound, by simp [checkLoop, hf], Or.inl rfl⟩
      · by_cases hs : p.stock < it.quantity
        · refine ⟨.insufficientStock p.name, by simp [checkLoop, hf, hs], Or.inr ?_⟩
          exact ⟨it, by simp, p, hf, hs, rfl⟩
        · have hrest : ∃ x ∈ rest, itemFails pdb x := by
            rcases h with ⟨x, hxmem, hxbad⟩
            rcases List.mem_cons.mp hxmem with rfl | hxrest
            · rcases hxbad with hnone | ⟨q, hq, hqs⟩
              · rw [hf] at hnone; cases hnone
              · rw [hf] at hq; cases hq; exact absurd hqs hs
            · exact ⟨x, hxrest, hxbad⟩
          rcases ih (t + p.price * it.quantity) hrest with ⟨e, heq, hprop⟩
          refine ⟨e, by simp [checkLoop, hf, hs, heq], ?_⟩
          rcases hprop with h1 | ⟨x, hxmem, q, hq, hqs, hname⟩
          · exact Or.inl h1
          · exact Or.inr ⟨x, List.mem_cons_of_mem _ hxmem, q, hq, hqs, hname⟩

lemma checkLoop_ok_of_all_ok (pdb : List Product) :
    ∀ (items : List OrderItemIn) (t : ℚ),
      (∀ it ∈ items, ∃ p, findProduct pdb it.product_id = some p ∧ ¬ p.stock < it.quantity) →
      ∃ total, checkLoop pdb items t = .ok total := by
  intro items
  induction items with
  | nil => intro t _; exact ⟨t, rfl⟩
  | cons it rest ih =>
      intro t h
      rcases h it (by simp) with ⟨p, hp, hs⟩
      rcases ih (t + p.price * it.quantity) (fun x hx => h x (List.mem_cons_of_mem _ hx)) with
        ⟨total, htot⟩
      exact ⟨total, by simp [checkLoop, hp, hs, htot]⟩

/-! ### Claim theorems: order placement -/

/-- C1: if any requested item's product is missing or has stock below the
requested quantity, place_order returns the corresponding error — 404
product-not-found or 400 insufficient-stock naming the product — and the
error carries the product and order collections exactly as they were: no
stock decrement and no order insertion happens on the error path. -/
theorem place_order_error_leaves_state_unchanged (pdb : List Product)
    (odb : List OrderDoc) (o : OrderCreate) (h : ∃ it ∈ o.items, itemFails pdb it) :
    ∃ e, place_order pdb odb o = .error (e, pdb, odb) ∧
      ((e = .productNotFound ∧ e.status = 404) ∨
        (∃ it ∈ o.items, ∃ p, findProduct pdb it.product_id = some p ∧
          p.stock < it.quantity ∧ e = .insufficientStock p.name ∧ e.status = 400)) := by
  rcases checkLoop_error_of_fails pdb o.items 0 h with ⟨e, heq, hprop⟩
  refine ⟨e, by simp [place_order, heq], ?_⟩
  rcases hprop with rfl | ⟨it, hmem, p, hp, hs, rfl⟩
  · exact Or.inl ⟨rfl, rfl⟩
  · exact Or.inr ⟨it, hmem, p, hp, hs, rfl, rfl⟩

/-- C1 witness: one product with stock 10, one request for quantity 11;
the handler returns the 400 insufficient-stock error naming the product
and both collections are carried back unchanged. -/
theorem place_order_error_leaves_state_unchanged_witness :
    (∃ it ∈ ({ user_id := 7, items := [⟨0, 11⟩] } : OrderCreate).items,
        itemFails [{ id := 0, name := "apple", description := none, price := 5/2,
                     image := none, stock := 10 }] it) ∧
    (∃ e, place_order
        [{ id := 0, name := "apple", description := none, price := 5/2,
           image := none, stock := 10 }] [] { user_id := 7, items := [⟨0, 11⟩] } =
        .error (e, [{ id := 0, name := "apple", description := none, price := 5/2,
                      image := none, stock := 10 }], []) ∧
      ((e = .productNotFound ∧ e.status = 404) ∨
        (∃ it ∈ ({ user_id := 7, items := [⟨0, 11⟩] } : OrderCreate).items,
          ∃ p, findProduct [{ id := 0, name := "apple", description := none, price := 5/2,
                              image := none, stock := 10 }] it.product_id = some p ∧
            p.stock < it.quantity ∧ e = .insufficientStock p.name ∧ e.status = 400))) := by
  have hb : ∃ it ∈ ({ user_id := 7, items := [⟨0, 11⟩] } : OrderCreate).items,
      itemFails [{ id := 0, name := "apple", description := none, price := 5/2,
                   image := none, stock := 10 }] it := by
    exact ⟨⟨0, 11⟩, by simp,
      Or.inr ⟨{ id := 0, name := "apple", description := none, price := 5/2,
                image := none, stock := 10 }, by simp [findProduct], by decide⟩⟩
  exact ⟨hb, place_order_error_leaves_state_unchanged _ _ _ hb⟩

/-- C2: for a single product with price 2.50 and stock 10 and an order of
quantity 3, place_order decrements the stock to 7, inserts an order record
with total 7.50 and status placed, and returns that order's id, the given
user id, total 7.50 and status placed. -/
theorem place_order_concrete_valid_order (pid uid : Nat) (nm : String)
    (desc img : Option String) (odb : List OrderDoc) :
    place_order
        [{ id := pid, name := nm, description := desc, price := 5/2, image := img,
           stock := 10 }] odb { user_id := uid, items := [⟨pid, 3⟩] } =
      .ok ([{ id := pid, name := nm, description := desc, price := 5/2, image := img,
              stock := 7 }],
           odb ++ [{ id := odb.length, user_id := uid, items := [⟨pid, 3⟩],
                     total := 15/2, status := "placed" }],
           { id := odb.length, user_id := uid, total := 15/2, status := "placed",
             created_at := none }) := by
  simp [place_order, checkLoop, findProduct, decLoop, incStockFirst, insertOrder]
  norm_num

/-- C10: an order with an empty items list succeeds: the product collection
is returned untouched, an order with total 0 and status placed is inserted,
and the response carries that order's id, the given user id, total 0 and
status placed. -/
theorem place_order_empty_items (pdb : List Product) (odb : List OrderDoc) (uid : Nat) :
    place_order pdb odb { user_id := uid, items := [] } =
      .ok (pdb,
           odb ++ [{ id := odb.length, user_id := uid, items := [], total := 0,
                     status := "placed" }],
           { id := odb.length, user_id := uid, total := 0, status := "placed",
             created_at := none }) := rfl

/-- C7: every successfully placed order is stored as the request's line
items verbatim — each stored item is an OrderItemIn holding exactly the
requested product id and quantity; the name/price snapshot fields of the
declared OrderItemSchema are never populated by this write path (the
stored item shape has no such fields at all). -/
theorem place_order_stores_only_id_and_quantity (pdb pdb2 : List Product)
    (odb odb2 : List OrderDoc) (o : OrderCreate) (out : OrderOut)
    (h : place_order pdb odb o = .ok (pdb2, odb2, out)) :
    odb2 = odb ++ [{ id := out.id, user_id := o.user_id, items := o.items,
                     total := out.total, status := "placed" }] := by
  unfold place_order at h
  rcases hc : checkLoop pdb o.items 0 with ⟨e, pdb1⟩ | total
  · rw [hc] at h; cases h
  · rw [hc] at h
    simp only [insertOrder, Except.ok.injEq, Prod.mk.injEq] at h
    rcases h with ⟨_, h2, h3⟩
    subst h2; subst h3
    simp

/-- C7 witness: the concrete valid order of one item (product 0,
quantity 3) is stored with exactly that product id and quantity. -/
theorem place_order_stores_only_id_and_quantity_witness :
    [] ++ [({ id := 0, user_id := 7,
              items := ({ user_id := 7, items := [⟨0, 3⟩] } : OrderCreate).items,
              total := 15/2, status := "placed" } : OrderDoc)] =
      [] ++ [{ id := ({ id := 0, user_id := 7, total := 15/2, status := "placed",
                        created_at := none } : OrderOut).id,
               user_id := ({ user_id := 7, items := [⟨0, 3⟩] } : OrderCreate).user_id,
               items := ({ user_id := 7, items := [⟨0, 3⟩] } : OrderCreate).items,
               total := ({ id := 0, user_id := 7, total := 15/2, status := "placed",
                           created_at := none } : OrderOut).total,
               status := "placed" }] :=
  place_order_stores_only_id_and_quantity
    [{ id := 0, name := "apple", description := none, price := 5/2, image := none,
       stock := 10 }]
    [{ id := 0, name := "apple", description := none, price := 5/2, image := none,
       stock := 7 }]
    [] _ { user_id := 7, items := [⟨0, 3⟩] } _
    (place_order_concrete_valid_order 0 7 "apple" none none [])

lemma decLoop_nil (pdb : List Product) : decLoop pdb [] = pdb := rfl

lemma decLoop_cons (pdb : List Product) (it : OrderItemIn) (items : List OrderItemIn) :
    decLoop pdb (it :: items) =
      decLoop (incStockFirst it.product_id (-it.quantity) pdb) items := rfl

lemma findProduct_incStockFirst_ne (pid pid' : Nat) (delta : Int) (h : pid ≠ pid') :
    ∀ pdb : List Product, findProduct (incStockFirst pid' delta pdb) pid = findProduct pdb pid := by
  intro pdb
  induction pdb with
  | nil => rfl
  | cons p rest ih =>
      by_cases hp : p.id = pid'
      · have h1 : ¬ p.id = pid := fun hc => h (hc.symm.trans hp)
        rw [incStockFirst, if_pos (by simpa using hp)]
        rw [findProduct, List.find?_cons_of_neg _ (by simpa using h1),
          findProduct, List.find?_cons_of_neg _ (by simpa using h1)]
      · rw [incStockFirst, if_neg (by simpa using hp)]
        by_cases hq : p.id = pid
        · rw [findProduct, List.find?_cons_of_pos _ (by simpa using hq),
            findProduct, List.find?_cons_of_pos _ (by simpa using hq)]
        · rw [findProduct, List.find?_cons_of_neg _ (by simpa using hq),
            findProduct, List.find?_cons_of_neg _ (by simpa using hq)]
          exact ih

lemma findProduct_incStockFirst_eq (pid : Nat) (delta : Int) :
    ∀ (pdb : List Product) (p : Product), findProduct pdb pid = some p →
      findProduct (incStockFirst pid delta pdb) pid =
        some { p with stock := p.stock + delta } := by
  intro pdb
  induction pdb with
  | nil => intro p h; cases h
  | cons q rest ih =>
      intro p h
      by_cases hq : q.id = pid
      · rw [findProduct, List.find?_cons_of_pos _ (by simpa using hq)] at h
        cases h
        simp [incStockFirst, findProduct, hq]
      · rw [findProduct, List.find?_cons_of_neg _ (by simpa using hq)] at h
        simpa [incStockFirst, findProduct, hq] using ih p h

lemma findProduct_decLoop_frame :
    ∀ (items : List OrderItemIn) (pdb : List Product) (pid : Nat),
      (∀ it ∈ items, it.product_id ≠ pid) →
      findProduct (decLoop pdb items) pid = findProduct pdb pid := by
  intro items
  induction items with
  | nil => intro pdb pid _; rfl
  | cons it rest ih =>
      intro pdb pid h
      rw [decLoop_cons, ih _ _ (fun x hx => h x (List.mem_cons_of_mem _ hx)),
        findProduct_incStockFirst_ne _ _ _ (fun hc => h it (by simp) hc.symm)]

lemma findProduct_decLoop_distinct :
    ∀ (items : List OrderItemIn) (pdb : List Product),
      items.Pairwise (fun a b => a.product_id ≠ b.product_id) →
      ∀ it ∈ items, ∀ p, findProduct pdb it.product_id = some p →
        findProduct (decLoop pdb items) it.product_id =
          some { p with stock := p.stock - it.quantity } := by
  intro items
  induction items with
  | nil => intro pdb _ it hmem; cases hmem
  | cons hd rest ih =>
      intro pdb hpw it hmem p hp
      rcases List.pairwise_cons.mp hpw with ⟨hhd, hrest⟩
      rcases List.mem_cons.mp hmem with rfl | hmemrest
      · rw [decLoop_cons,
          findProduct_decLoop_frame rest _ _ (fun x hx => (hhd x hx).symm),
          findProduct_incStockFirst_eq _ _ _ _ hp]
        congr 1
      · rw [decLoop_cons]
        refine ih _ hrest it hmemrest p ?_
        rw [findProduct_incStockFirst_ne it.product_id hd.product_id _
          (fun hc => hhd it hmemrest hc.symm) pdb]
        exact hp

/-- C9: for a request with pairwise-distinct product ids whose items all
pass the stock check, place_order succeeds and each referenced product's
resulting stock is exactly its fetched stock minus that item's quantity,
and is nonnegative; and the distinctness precondition is essential — the
second conjunct shows a request listing one product (stock 1) twice with
quantity 1 each: both lines validate against the same pre-decrement stock,
the order succeeds, and the product's stock ends at -1, sequentially. -/
theorem place_order_distinct_items_decrement :
    (∀ (pdb : List Product) (odb : List OrderDoc) (o : OrderCreate),
      o.items.Pairwise (fun a b => a.product_id ≠ b.product_id) →
      (∀ it ∈ o.items, ∃ p, findProduct pdb it.product_id = some p ∧
        ¬ p.stock < it.quantity) →
      ∃ pdb2 odb2 out, place_order pdb odb o = .ok (pdb2, odb2, out) ∧
        ∀ it ∈ o.items, ∀ p, findProduct pdb it.product_id = some p →
          findProduct pdb2 it.product_id =
            some { p with stock := p.stock - it.quantity } ∧
          0 ≤ p.stock - it.quantity) ∧
    (∃ pdb2 odb2 out,
      place_order
          [{ id := 0, name := "apple", description := none, price := 1, image := none,
             stock := 1 }] [] { user_id := 7, items := [⟨0, 1⟩, ⟨0, 1⟩] } =
        .ok (pdb2, odb2, out) ∧
      findProduct pdb2 0 =
        some { id := 0, name := "apple", description := none, price := 1, image := none,
               stock := -1 }) := by
  constructor
  · intro pdb odb o hpw hok
    rcases checkLoop_ok_of_all_ok pdb o.items 0 hok with ⟨total, htot⟩
    refine ⟨decLoop pdb o.items,
      odb ++ [{ id := odb.length, user_id := o.user_id, items := o.items,
                total := total, status := "placed" }],
      { id := odb.length, user_id := o.user_id, total := total, status := "placed",
        created_at := none },
      by simp [place_order, htot, insertOrder], ?_⟩
    intro it hmem p hp
    refine ⟨findProduct_decLoop_distinct o.items pdb hpw it hmem p hp, ?_⟩
    rcases hok it hmem with ⟨q, hq, hqs⟩
    rw [hp] at hq; cases hq
    exact Int.sub_nonneg.mpr (Int.not_lt.mp hqs)
  · refine ⟨[{ id := 0, name := "apple", description := none, price := 1, image := none,
               stock := -1 }],
        [{ id := 0, user_id := 7, items := [⟨0, 1⟩, ⟨0, 1⟩], total := 2,
           status := "placed" }],
        { id := 0, user_id := 7, total := 2, status := "placed", created_at := none },
        ?_, by simp [findProduct]⟩
    simp [place_order, checkLoop, findProduct, decLoop, incStockFirst, insertOrder]
    norm_num

/-- C9 witness: the universal part applied to one product with stock 10 and
one item of quantity 3 — the resulting stock is 7 = 10 - 3 and nonnegative. -/
theorem place_order_distinct_items_decrement_witness :
    ∃ pdb2 odb2 out,
      place_order
          [{ id := 0, name := "apple", description := none, price := 5/2, image := none,
             stock := 10 }] [] { user_id := 7, items := [⟨0, 3⟩] } =
        .ok (pdb2, odb2, out) ∧
      ∀ it ∈ ({ user_id := 7, items := [⟨0, 3⟩] } : OrderCreate).items,
        ∀ p, findProduct
            [{ id := 0, name := "apple", description := none, price := 5/2, image := none,
               stock := 10 }] it.product_id = some p →
          findProduct pdb2 it.product_id =
            some { p with stock := p.stock - it.quantity } ∧
          0 ≤ p.stock - it.quantity :=
  place_order_distinct_items_decrement.1
    [{ id := 0, name := "apple", description := none, price := 5/2, image := none,
       stock := 10 }] [] { user_id := 7, items := [⟨0, 3⟩] }
    (by simp)
    (by
      intro it hmem
      simp only [List.mem_singleton] at hmem
      subst hmem
      exact ⟨{ id := 0, name := "apple", description := none, price := 5/2, image := none,
               stock := 10 }, by simp [findProduct], by decide⟩)

/-! ### Claim theorems: hashing and authentication -/

/-- C8: verify composed with hash accepts for every password, and the
digest is a deterministic function of the password alone under the fixed
process-wide secret key — equal passwords always produce equal digests
(there is no salt or per-user randomness anywhere in hash_password). -/
theorem hash_verify_roundtrip_deterministic (HMAC : String → String → String)
    (p q : String) (h : q = p) :
    verify_password HMAC p (hash_password HMAC p) = true ∧
    hash_password HMAC q = hash_password HMAC p := by
  subst h
  exact ⟨by simp [verify_password, compare_digest], rfl⟩

/-- C8 witness: a concrete keyed-hash primitive and password. -/
theorem hash_verify_roundtrip_deterministic_witness :
    verify_password (fun k m => k ++ m) "pw"
        (hash_password (fun k m => k ++ m) "pw") = true ∧
    hash_password (fun k m => k ++ m) "pw" = hash_password (fun k m => k ++ m) "pw" :=
  hash_verify_roundtrip_deterministic (fun k m => k ++ m) "pw" "pw" rfl

/-- C6: after any successful signup, logging in with the same email and
password succeeds and returns the public view with role user and the same
email (and the name and id assigned at signup). -/
theorem signup_then_login_succeeds (HMAC : String → String → String)
    (s s2 : List UserDoc) (pay : SignupRequest) (view : UserPublic)
    (h : user_signup HMAC s pay = .ok (s2, view)) :
    user_login HMAC s2 { email := pay.email, password := pay.password } =
      .ok { id := s.length, name := pay.name, email := pay.email, role := "user" } := by
  by_cases hadmin : pay.email = ADMIN_EMAIL
  · simp [user_signup, hadmin] at h
  · rcases hf : find_one s pay.email with _ | u
    · simp only [user_signup, if_neg hadmin, hf, Except.ok.injEq, Prod.mk.injEq] at h
      rcases h with ⟨hs2, _⟩
      have hf' : s.find? (fun u => u.email == pay.email) = none := hf
      subst hs2
      simp [user_login, find_one, hf', verify_password, compare_digest, hash_password]
    · simp [user_signup, if_neg hadmin, hf] at h

/-- C6 witness: signing up Bob then logging in as Bob on the resulting
state returns Bob's public view with role user. -/
theorem signup_then_login_succeeds_witness :
    user_signup (fun k m => k ++ m) [] { name := "Bob", email := "bob@x.com", password := "pw" } =
      .ok ([{ id := 0, name := "Bob", email := "bob@x.com",
              password_hash := hash_password (fun k m => k ++ m) "pw", role := "user" }],
           { id := 0, name := "Bob", email := "bob@x.com", role := "user" }) ∧
    user_login (fun k m => k ++ m)
        [{ id := 0, name := "Bob", email := "bob@x.com",
           password_hash := hash_password (fun k m => k ++ m) "pw", role := "user" }]
        { email := "bob@x.com", password := "pw" } =
      .ok { id := 0, name := "Bob", email := "bob@x.com", role := "user" } := by
  have hsign : user_signup (fun k m => k ++ m) []
      { name := "Bob", email := "bob@x.com", password := "pw" } =
      .ok ([{ id := 0, name := "Bob", email := "bob@x.com",
              password_hash := hash_password (fun k m => k ++ m) "pw", role := "user" }],
           { id := 0, name := "Bob", email := "bob@x.com", role := "user" }) := by
    simp [user_signup, ADMIN_EMAIL, find_one]
  exact ⟨hsign, signup_then_login_succeeds (fun k m => k ++ m) _ _ _ _ hsign⟩

/-- C5: admin login succeeds exactly when the supplied email is the
reserved admin email, the password verifies against the stored hash of the
record found for it, and that record's role is admin; in particular every
login with any other email fails (with invalid-credentials or
admin-access-denied), even if that account's role were admin. -/
theorem admin_login_characterization (HMAC : String → String → String)
    (s : List UserDoc) (payload : LoginRequest) :
    ((∃ v, admin_login HMAC s payload = .ok v) ↔
      (payload.email = ADMIN_EMAIL ∧ ∃ u, find_one s payload.email = some u ∧
        verify_password HMAC payload.password u.password_hash = true ∧
        u.role = "admin")) ∧
    (payload.email ≠ ADMIN_EMAIL → ∃ e, admin_login HMAC s payload = .error e) := by
  rcases hf : find_one s payload.email with _ | u
  · exact ⟨by simp [admin_login, hf], fun _ => ⟨.invalidCredentials, by simp [admin_login, hf]⟩⟩
  · by_cases hv : verify_password HMAC payload.password u.password_hash = true
    · by_cases hcond : payload.email ≠ ADMIN_EMAIL ∨ u.role ≠ "admin"
      · have hres : admin_login HMAC s payload = .error .adminAccessDenied := by
          simp only [admin_login, hf]
          rw [if_neg (by simp [hv]), if_pos hcond]
        refine ⟨?_, fun _ => ⟨.adminAccessDenied, hres⟩⟩
        rw [hres]
        constructor
        · rintro ⟨v, hvv⟩; cases hvv
        · rintro ⟨hemail, u', hu', _, hrole⟩
          cases hu'
          rcases hcond with hc | hc
          · exact absurd hemail hc
          · exact absurd hrole hc
      · push_neg at hcond
        have hres : admin_login HMAC s payload =
            .ok { id := u.id, name := u.name, email := u.email, role := "admin" } := by
          simp only [admin_login, hf]
          rw [if_neg (by simp [hv]), if_neg (by push_neg; exact hcond)]
        refine ⟨?_, fun hne => absurd hcond.1 hne⟩
        rw [hres]
        constructor
        · intro _; exact ⟨hcond.1, u, rfl, hv, hcond.2⟩
        · intro _; exact ⟨_, rfl⟩
    · have hres : admin_login HMAC s payload = .error .invalidCredentials := by
        simp only [admin_login, hf]
        rw [if_pos (by simpa using hv)]
      refine ⟨?_, fun _ => ⟨.invalidCredentials, hres⟩⟩
      rw [hres]
      constructor
      · rintro ⟨v, hvv⟩; cases hvv
      · rintro ⟨_, u', hu', hver, _⟩
        cases hu'
        exact absurd hver hv

/-- C5 witness: on the freshly seeded state, admin login with the reserved
email and configured password succeeds, and a login with a different email
fails. -/
theorem admin_login_characterization_witness :
    ((∃ v, admin_login (fun k m => k ++ m) (seed_admin (fun k m => k ++ m) [])
        { email := ADMIN_EMAIL, password := ADMIN_PASSWORD } = .ok v) ↔
      (({ email := ADMIN_EMAIL, password := ADMIN_PASSWORD } : LoginRequest).email = ADMIN_EMAIL ∧
        ∃ u, find_one (seed_admin (fun k m => k ++ m) []) ADMIN_EMAIL = some u ∧
          verify_password (fun k m => k ++ m) ADMIN_PASSWORD u.password_hash = true ∧
          u.role = "admin")) ∧
    (({ email := ADMIN_EMAIL, password := ADMIN_PASSWORD } : LoginRequest).email ≠ ADMIN_EMAIL →
      ∃ e, admin_login (fun k m => k ++ m) (seed_admin (fun k m => k ++ m) [])
        { email := ADMIN_EMAIL, password := ADMIN_PASSWORD } = .error e) :=
  admin_login_characterization (fun k m => k ++ m) (seed_admin (fun k m => k ++ m) [])
    { email := ADMIN_EMAIL, password := ADMIN_PASSWORD }

/-! ### Claim theorem: the product nonnegativity invariant fails -/

/-- C4 (code bug): main.py's ProductIn carries no lower bound on price or
stock, unlike the declared database schema (schemas.py Product: price ge 0,
stock ge 0), so admin product creation accepts and stores a product with
price -1 and stock -2 under valid admin credentials on the freshly seeded
state; the nonnegativity invariant claimed for reachable product records is
violated by the write path itself (and, independently, the order handler
can drive stock to -1, see the duplicate-item conjunct of the C9 theorem). -/
theorem create_product_stores_negative_price_stock (HMAC : String → String → String) :
    create_product HMAC (seed_admin HMAC [])
        [] { product := { name := "Lemon", description := none, price := -1, image := none,
                          stock := -2 },
             credentials := { email := ADMIN_EMAIL, password := ADMIN_PASSWORD } } =
      .ok ([{ id := 0, name := "Lemon", description := none, price := -1, image := none,
              stock := -2 }],
           { id := 0, name := "Lemon", description := none, price := -1, image := none,
             stock := -2 }) ∧
    ((-1 : ℚ) < 0 ∧ (-2 : Int) < 0) := by
  have hseed : seed_admin HMAC [] =
      [{ id := 0, name := "Admin", email := ADMIN_EMAIL,
         password_hash := hash_password HMAC ADMIN_PASSWORD, role := "admin" }] := by
    simp [seed_admin, find_one, demoteOtherAdmins, ADMIN_EMAIL]
  refine ⟨?_, by norm_num, by norm_num⟩
  rw [hseed]
  simp [create_product, find_one, verify_password, compare_digest, ADMIN_EMAIL]

/-! ### Helper lemmas about startup seeding -/

lemma adminRecords_demoteOtherAdmins (s : List UserDoc) :
    adminRecords (demoteOtherAdmins s) =
      s.filter (fun u => u.email == ADMIN_EMAIL && u.role == "admin") := by
  induction s with
  | nil => rfl
  | cons u rest ih =>
      by_cases he : u.email = ADMIN_EMAIL
      · by_cases hr : u.role = "admin"
        · simpa [demoteOtherAdmins, adminRecords, he, hr] using ih
        · simpa [demoteOtherAdmins, adminRecords, he, hr] using ih
      · by_cases hr : u.role = "admin"
        · simpa [demoteOtherAdmins, adminRecords, he, hr] using ih
        · simpa [demoteOtherAdmins, adminRecords, he, hr] using ih

lemma reservedCount_demoteOtherAdmins (s : List UserDoc) :
    reservedCount (demoteOtherAdmins s) = reservedCount s := by
  unfold reservedCount demoteOtherAdmins
  rw [List.countP_map]
  refine List.countP_congr (fun x _ => ?_)
  by_cases hc : x.email ≠ ADMIN_EMAIL ∧ x.role = "admin"
  · simp [Function.comp, hc]
  · simp [Function.comp, hc]

lemma reservedCount_setAdminFirst (h : String) :
    ∀ t : List UserDoc, reservedCount (setAdminFirst h t) = reservedCount t := by
  intro t
  induction t with
  | nil => rfl
  | cons u rest ih =>
      by_cases he : u.email = ADMIN_EMAIL
      · simp [setAdminFirst, reservedCount, List.countP_cons, he]
      · simp only [setAdminFirst, if_neg (by simpa using he)]
        simp [reservedCount, List.countP_cons, he] at ih ⊢
        exact ih

lemma find_one_admin_eq_none_iff (s : List UserDoc) :
    find_one s ADMIN_EMAIL = none ↔ reservedCount s = 0 := by
  simp [find_one, reservedCount, List.find?_eq_none]

lemma setAdminFirst_spec (h : String) :
    ∀ t : List UserDoc, reservedCount t = 1 →
      (∀ u ∈ t, u.role = "admin" → u.email = ADMIN_EMAIL) →
      ∃ u, adminRecords (setAdminFirst h t) = [u] ∧ u.email = ADMIN_EMAIL ∧
        u.password_hash = h ∧ find_one (setAdminFirst h t) ADMIN_EMAIL = some u := by
  intro t
  induction t with
  | nil => intro h1 _; simp [reservedCount] at h1
  | cons u rest ih =>
      intro h1 hadm
      by_cases he : u.email = ADMIN_EMAIL
      · have hset : setAdminFirst h (u :: rest) =
            { u with role := "admin", password_hash := h } :: rest := by
          simp [setAdminFirst, he]
        have hrest0 : ∀ x ∈ rest, ¬ x.email = ADMIN_EMAIL := by
          have h1' := h1
          simp [reservedCount, List.countP_cons, he] at h1'
          exact h1'
        have hnoadm : adminRecords rest = [] := by
          simp only [adminRecords, List.filter_eq_nil_iff]
          intro x hx hxrole
          exact hrest0 x hx (hadm x (List.mem_cons_of_mem _ hx) (by simpa using hxrole))
        refine ⟨{ u with role := "admin", password_hash := h }, ?_, he, rfl, ?_⟩
        · rw [hset]
          simpa [adminRecords] using hnoadm
        · rw [hset]
          simp [find_one, he]
      · have hset : setAdminFirst h (u :: rest) = u :: setAdminFirst h rest := by
          simp [setAdminFirst, he]
        have hcount : reservedCount rest = 1 := by
          simpa [reservedCount, List.countP_cons, he] using h1
        have huadm : ¬ u.role = "admin" := fun hr => he (hadm u (by simp) hr)
        rcases ih hcount (fun x hx => hadm x (List.mem_cons_of_mem _ hx)) with
          ⟨w, hw1, hw2, hw3, hw4⟩
        refine ⟨w, ?_, hw2, hw3, ?_⟩
        · rw [hset]
          simpa [adminRecords, huadm] using hw1
        · rw [hset]
          simpa [find_one, he] using hw4

lemma seed_admin_spec_aux (HMAC : String → String → String) (s : List UserDoc)
    (hle : reservedCount s ≤ 1) :
    ∃ u, adminRecords (seed_admin HMAC s) = [u] ∧ u.email = ADMIN_EMAIL ∧
      u.password_hash = hash_password HMAC ADMIN_PASSWORD ∧
      find_one (seed_admin HMAC s) ADMIN_EMAIL = some u ∧
      reservedCount (seed_admin HMAC s) = 1 := by
  rcases hf : find_one s ADMIN_EMAIL with _ | w
  · have h0 : reservedCount s = 0 := (find_one_admin_eq_none_iff s).mp hf
    have hnores : ∀ x ∈ s, ¬ (x.email == ADMIN_EMAIL) := List.countP_eq_zero.mp h0
    have hseed : seed_admin HMAC s =
        demoteOtherAdmins
          (s ++ [{ id := s.length, name := "Admin", email := ADMIN_EMAIL,
                   password_hash := hash_password HMAC ADMIN_PASSWORD,
                   role := "admin" }]) := by
      simp [seed_admin, hf]
    refine ⟨{ id := s.length, name := "Admin", email := ADMIN_EMAIL,
              password_hash := hash_password HMAC ADMIN_PASSWORD, role := "admin" },
            ?_, rfl, rfl, ?_, ?_⟩
    · rw [hseed, adminRecords_demoteOtherAdmins, List.filter_append]
      have hs : s.filter (fun u => u.email == ADMIN_EMAIL && u.role == "admin") = [] := by
        simp only [List.filter_eq_nil_iff]
        intro x hx
        simp [hnores x hx]
      rw [hs]
      simp
    · rw [hseed]
      unfold demoteOtherAdmins
      rw [List.map_append, find_one, List.find?_append]
      have hmap : (s.map fun u =>
          if u.email ≠ ADMIN_EMAIL ∧ u.role = "admin" then { u with role := "user" }
          else u).find? (fun u => u.email == ADMIN_EMAIL) = none := by
        simp only [List.find?_eq_none]
        intro x hx
        rcases List.mem_map.mp hx with ⟨y, hy, rfl⟩
        by_cases hc : y.email ≠ ADMIN_EMAIL ∧ y.role = "admin"
        · rw [if_pos hc]
          simpa using hnores y hy
        · rw [if_neg hc]
          simpa using hnores y hy
      rw [hmap]
      simp
    · rw [hseed, reservedCount_demoteOtherAdmins]
      simp [reservedCount] at h0 ⊢
      intro x hx
      exact h0 x hx
  · have hf' : s.find? (fun u => u.email == ADMIN_EMAIL) = some w := hf
    have hw_mem : w ∈ s := List.mem_of_find?_eq_some hf'
    have hw_pred := List.find?_some hf'
    have h1 : reservedCount s = 1 := by
      have hpos : 0 < reservedCount s := List.countP_pos_iff.mpr ⟨w, hw_mem, hw_pred⟩
      omega
    have hseed : seed_admin HMAC s =
        setAdminFirst (hash_password HMAC ADMIN_PASSWORD) (demoteOtherAdmins s) := by
      simp [seed_admin, hf]
    have hdem1 : reservedCount (demoteOtherAdmins s) = 1 := by
      rw [reservedCount_demoteOtherAdmins]; exact h1
    have hdemadm : ∀ u ∈ demoteOtherAdmins s, u.role = "admin" → u.email = ADMIN_EMAIL := by
      intro u hu hrole
      unfold demoteOtherAdmins at hu
      rcases List.mem_map.mp hu with ⟨x, _, rfl⟩
      by_cases hc : x.email ≠ ADMIN_EMAIL ∧ x.role = "admin"
      · rw [if_pos hc] at hrole
        simp at hrole
      · rw [if_neg hc] at hrole ⊢
        by_contra hne
        exact hc ⟨hne, hrole⟩
    rcases setAdminFirst_spec (hash_password HMAC ADMIN_PASSWORD)
        (demoteOtherAdmins s) hdem1 hdemadm with ⟨u, hu1, hu2, hu3, hu4⟩
    refine ⟨u, ?_, hu2, hu3, ?_, ?_⟩
    · rw [hseed]; exact hu1
    · rw [hseed]; exact hu4
    · rw [hseed, reservedCount_setAdminFirst, reservedCount_demoteOtherAdmins]
      exact h1

/-! ### Claim theorem: startup seeding invariant -/

/-- C3: for every user-collection state conforming to the data model's
email-uniqueness invariant (at most one record carries the reserved admin
email), after the startup seeding routine — and again after running it a
second time — the records with role admin are exactly one record: it
carries the reserved admin email, its stored password hash is the keyed
hash of the configured admin password, and it is the record the reserved
email resolves to. -/
theorem seed_admin_exactly_one_admin (HMAC : String → String → String)
    (s : List UserDoc) (hle : reservedCount s ≤ 1) :
    (∃ u, adminRecords (seed_admin HMAC s) = [u] ∧ u.email = ADMIN_EMAIL ∧
      u.password_hash = hash_password HMAC ADMIN_PASSWORD ∧
      find_one (seed_admin HMAC s) ADMIN_EMAIL = some u) ∧
    (∃ u, adminRecords (seed_admin HMAC (seed_admin HMAC s)) = [u] ∧
      u.email = ADMIN_EMAIL ∧
      u.password_hash = hash_password HMAC ADMIN_PASSWORD ∧
      find_one (seed_admin HMAC (seed_admin HMAC s)) ADMIN_EMAIL = some u) := by
  rcases seed_admin_spec_aux HMAC s hle with ⟨u, h1, h2, h3, h4, h5⟩
  rcases seed_admin_spec_aux HMAC (seed_admin HMAC s) (le_of_eq h5) with
    ⟨v, g1, g2, g3, g4, _⟩
  exact ⟨⟨u, h1, h2, h3, h4⟩, ⟨v, g1, g2, g3, g4⟩⟩

/-- C3 witness: seeding from the empty collection (which trivially has at
most one reserved-email record) once and twice. -/
theorem seed_admin_exactly_one_admin_witness :
    reservedCount ([] : List UserDoc) ≤ 1 ∧
    ((∃ u, adminRecords (seed_admin (fun k m => k ++ m) []) = [u] ∧
       u.email = ADMIN_EMAIL ∧
       u.password_hash = hash_password (fun k m => k ++ m) ADMIN_PASSWORD ∧
       find_one (seed_admin (fun k m => k ++ m) []) ADMIN_EMAIL = some u) ∧
     (∃ u, adminRecords (seed_admin (fun k m => k ++ m)
         (seed_admin (fun k m => k ++ m) [])) = [u] ∧
       u.email = ADMIN_EMAIL ∧
       u.password_hash = hash_password (fun k m => k ++ m) ADMIN_PASSWORD ∧
       find_one (seed_admin (fun k m => k ++ m)
         (seed_admin (fun k m => k ++ m) [])) ADMIN_EMAIL = some u)) :=
  ⟨by simp [reservedCount],
   seed_admin_exactly_one_admin (fun k m => k ++ m) [] (by simp [reservedCount])⟩
